import Mathlib

/-!
Verification of the Kaleidoscope front end in `src/kal.cc`: the lexer
(`getTok`), the precedence-climbing expression parser (`ParseExpression` /
`ParseBinaryOpRHS`), and the AST-to-IR lowering (`codegen` on the AST node
classes).  The C++ code is shallowly embedded: the character stream becomes a
`List Char`, the one pending lookahead character (`static int LastChar`)
becomes an `Option Char` (with `none` playing the role of `EOF`), `double`
becomes `ℚ` (no claim here depends on binary floating-point rounding), and
LLVM's `Module` / `IRBuilder` state becomes an explicit `CGState` record that
is threaded through the lowering functions.
-/

-- ---------------------------------------------------------------------------
-- Lexer (src/kal.cc lines 24-91)
-- ---------------------------------------------------------------------------

/-- Tokens returned by `getTok`.  In the C++ code a token is an `int`: one of
the negative `enum Token` values or a plain character code, with the side
globals `IndetifierStr` and `NumVal` carrying the payload.  Here the payload
is carried inside the token itself. -/
inductive Token where
  | tok_eof
  | tok_def
  | tok_extern
  | tok_identifier (s : String)
  | tok_number (v : ℚ)
  | tok_char (c : Char)
deriving DecidableEq

/-- Lexer state: the pending lookahead character (`static int LastChar`,
`none` = EOF has been read) and the remaining input characters. -/
structure LexState where
  lastChar : Option Char
  input : List Char
deriving DecidableEq

/-- C `isspace` in the default locale: space, tab, newline, vertical tab,
form feed, carriage return. -/
def c_isspace (c : Char) : Bool :=
  c == ' ' || c == '\t' || c == '\n' || c == '\x0b' || c == '\x0c' || c == '\r'

/-- C `isalpha` in the default locale: the ASCII ranges a-z (97-122) and
A-Z (65-90). -/
def c_isalpha (c : Char) : Bool :=
  (decide (97 ≤ c.toNat) && decide (c.toNat ≤ 122)) ||
  (decide (65 ≤ c.toNat) && decide (c.toNat ≤ 90))

/-- C `isdigit`: the ten ASCII digit characters. -/
def c_isdigit (c : Char) : Bool :=
  c == '0' || c == '1' || c == '2' || c == '3' || c == '4' ||
  c == '5' || c == '6' || c == '7' || c == '8' || c == '9'

/-- C `isalnum` = `isalpha` or `isdigit`. -/
def c_isalnum (c : Char) : Bool := c_isalpha c || c_isdigit c

/-- The character class of the number rule in `getTok` (line 62):
`isdigit(LastChar) || LastChar == '.'`. -/
def numChar (c : Char) : Bool := c_isdigit c || c == '.'

/-- Fused whitespace-and-comment skipping.  The C++ `getTok` first runs
`while (isspace(LastChar)) LastChar = getchar();`, and on seeing `'#'` runs a
comment loop consuming characters through end-of-line, then tail-calls itself
(lines 43-45 and 74-81); on `EOF` inside or right after a comment it falls
through to the `EOF` check.  Since `'#'` and whitespace are disjoint from the
identifier/number start classes, that mutual loop is equivalent to this
single scan that tracks whether it is currently inside a comment; the
newline that terminates a comment is itself whitespace and is consumed
directly.  Returns the first significant character (the new `LastChar`) and
the remaining input, or `none` at end of input. -/
def skipWsCom : Option Char → Bool → List Char → Option Char × List Char
  | none, _, inp => (none, inp)
  | some _, true, [] => (none, [])
  | some c, true, d :: rest =>
    if c == '\n' || c == '\r' then skipWsCom (some d) false rest
    else skipWsCom (some d) true rest
  | some c, false, inp =>
    if c_isspace c then
      match inp with
      | [] => (none, [])
      | d :: rest => skipWsCom (some d) false rest
    else if c == '#' then
      match inp with
      | [] => (none, [])
      | d :: rest => skipWsCom (some d) true rest
    else (some c, inp)

/-- The identifier loop of `getTok` (lines 51-52):
`while (isalnum(LastChar = getchar())) IndetifierStr += LastChar;`.
Returns the accumulated identifier text, the new `LastChar` and the rest of
the input. -/
def readIdentRest : String → List Char → String × Option Char × List Char
  | acc, [] => (acc, none, [])
  | acc, d :: rest =>
    if c_isalnum d then readIdentRest (acc.push d) rest else (acc, some d, rest)

/-- The number do-while loop of `getTok` (lines 64-67):
`do { NumStr += LastChar; LastChar = getchar(); } while (isdigit || '.');`.
The first character is already in `acc` when this is called. -/
def readNumRest : List Char → List Char → List Char × Option Char × List Char
  | acc, [] => (acc, none, [])
  | acc, d :: rest =>
    if numChar d then readNumRest (acc ++ [d]) rest else (acc, some d, rest)

/-- Value of a digit string, most significant digit first. -/
def digitsToNat (l : List Char) : Nat :=
  l.foldl (fun a c => a * 10 + (c.toNat - 48)) 0

/-- C `strtod` restricted to the strings `getTok` can hand it, which consist
only of digits and `'.'` characters: convert the longest valid prefix
(digits, optionally followed by `'.'` and more digits) and ignore the rest;
a string with no leading digits before a second `'.'` contributes 0.
This is the permissive numeric-string conversion of line 69,
`NumVal = strtod(NumStr.c_str(), 0);` — e.g. `"1.2.3"` converts to 1.2. -/
def strtod (s : List Char) : ℚ :=
  let ip := s.takeWhile c_isdigit
  let rest := s.dropWhile c_isdigit
  match rest with
  | '.' :: rest2 =>
    let fp := rest2.takeWhile c_isdigit
    (digitsToNat ip : ℚ) + (digitsToNat fp : ℚ) / ((10 : ℚ) ^ fp.length)
  | _ => (digitsToNat ip : ℚ)

/-- `getTok` (lines 40-91): skip whitespace and comments, then classify the
first significant character: identifier/keyword, number, or a verbatim
single-character token; end of input yields `tok_eof`. -/
def getTok (st : LexState) : Token × LexState :=
  match skipWsCom st.lastChar false st.input with
  | (none, inp) => (Token.tok_eof, ⟨none, inp⟩)
  | (some c, inp) =>
    if c_isalpha c then
      match readIdentRest (String.singleton c) inp with
      | (idStr, lc, rest) =>
        (if idStr = "def" then Token.tok_def
         else if idStr = "extern" then Token.tok_extern
         else Token.tok_identifier idStr, ⟨lc, rest⟩)
    else if numChar c then
      match readNumRest [c] inp with
      | (numStr, lc, rest) => (Token.tok_number (strtod numStr), ⟨lc, rest⟩)
    else
      match inp with
      | [] => (Token.tok_char c, ⟨none, []⟩)
      | d :: rest => (Token.tok_char c, ⟨some d, rest⟩)

/-- Run the lexer to exhaustion, producing the token stream a driver would
see through repeated `getNextTok()` calls.  The fuel is an upper bound on the
number of tokens: every token other than `tok_eof` consumes at least one
character from the lookahead-plus-input stream. -/
def tokenizeAux : Nat → LexState → List Token
  | 0, _ => []
  | fuel + 1, st =>
    match getTok st with
    | (Token.tok_eof, _) => [Token.tok_eof]
    | (t, st2) => t :: tokenizeAux fuel st2

/-- Tokenize a whole input string.  `LastChar` starts as `' '`
(line 41: `static int LastChar = ' ';`). -/
def tokenize (s : String) : List Token :=
  tokenizeAux (s.toList.length + 2) ⟨some ' ', s.toList⟩

-- ---------------------------------------------------------------------------
-- AST (src/kal.cc lines 98-175)
-- ---------------------------------------------------------------------------

/-- The expression AST: `NumberExprAST`, `VariableExprAST`, `BinaryExprAST`
and `CallExprAST` as one closed variant type. -/
inductive ExprAST where
  | Number (val : ℚ)
  | Variable (name : String)
  | Binary (op : Char) (lhs rhs : ExprAST)
  | Call (callee : String) (args : List ExprAST)

/-- `PrototypeAST`: a function name and its parameter names. -/
structure PrototypeAST where
  name : String
  args : List String
deriving DecidableEq

/-- `FunctionAST`: a prototype plus a body expression. -/
structure FunctionAST where
  proto : PrototypeAST
  body : ExprAST

-- ---------------------------------------------------------------------------
-- Parser (src/kal.cc lines 181-377)
-- ---------------------------------------------------------------------------

/-- The token stream as seen by the parser.  The C++ parser keeps one current
token (`static int CurTok`) refreshed by `getNextTok()`; since the lexer does
not depend on parser state, that interleaving is equivalent to pre-tokenizing
and walking the token list, with the head as `CurTok`. -/
abbrev Toks := List Token

/-- The current token; past the end of the stream the lexer keeps returning
`tok_eof`. -/
def CurTok (ts : Toks) : Token := ts.headD Token.tok_eof

/-- The operator precedence table as populated in `main`
(lines 571-574), with `std::map::operator[]` defaulting to 0 for
any other character. -/
def BinopPrecedence (c : Char) : Int :=
  if c = '<' then 10
  else if c = '+' then 20
  else if c = '-' then 30
  else if c = '*' then 40
  else 0

/-- `GetTokPrecedence` (lines 278-286): -1 unless the current token is an
ASCII character with a positive table entry.  The named tokens are negative
`int`s in C++, hence never `isascii`. -/
def GetTokPrecedence (t : Token) : Int :=
  match t with
  | Token.tok_char c =>
    if c.toNat ≤ 127 then
      (if BinopPrecedence c ≤ 0 then -1 else BinopPrecedence c)
    else -1
  | _ => -1

/-- `ParseNumberExpr` (lines 198-202): wrap `NumVal` and advance. -/
def ParseNumberExpr (ts : Toks) : Option ExprAST × Toks :=
  match CurTok ts with
  | Token.tok_number v => (some (ExprAST.Number v), ts.tail)
  | _ => (none, ts)

mutual

/-- `ParsePrimary` (lines 259-270): dispatch on the current token.  The fuel
argument of this mutual block only bounds recursion depth; every concrete
run below uses enough fuel that the bound is never hit. -/
def ParsePrimary : Nat → Toks → Option ExprAST × Toks
  | 0, ts => (none, ts)
  | fuel + 1, ts =>
    match CurTok ts with
    | Token.tok_identifier _ => ParseIdentifierExpr fuel ts
    | Token.tok_number _ => ParseNumberExpr ts
    | Token.tok_char '(' => ParseParenExpr fuel ts
    | _ => (none, ts)

/-- `ParseParenExpr` (lines 205-216): eat `'('`, parse an expression, require
and eat `')'`. -/
def ParseParenExpr : Nat → Toks → Option ExprAST × Toks
  | 0, ts => (none, ts)
  | fuel + 1, ts =>
    let ts1 := ts.tail
    match ParseExpression fuel ts1 with
    | (none, ts2) => (none, ts2)
    | (some v, ts2) =>
      if CurTok ts2 = Token.tok_char ')' then (some v, ts2.tail)
      else (none, ts2)

/-- `ParseIdentifierExpr` (lines 221-253): a bare identifier is a variable
reference; an identifier followed by `'('` is a call with a comma-separated
argument list. -/
def ParseIdentifierExpr : Nat → Toks → Option ExprAST × Toks
  | 0, ts => (none, ts)
  | fuel + 1, ts =>
    match CurTok ts with
    | Token.tok_identifier idName =>
      let ts1 := ts.tail
      if CurTok ts1 = Token.tok_char '(' then
        let ts2 := ts1.tail
        if CurTok ts2 = Token.tok_char ')' then
          (some (ExprAST.Call idName []), ts2.tail)
        else
          match ParseCallArgs fuel ts2 [] with
          | (none, ts3) => (none, ts3)
          | (some args, ts3) => (some (ExprAST.Call idName args), ts3.tail)
      else (some (ExprAST.Variable idName), ts1)
    | _ => (none, ts)

/-- The argument-list loop inside `ParseIdentifierExpr` (lines 233-247):
parse an expression, then either stop at `')'`, eat `','` and continue, or
fail.  Returns with the current token still on the `')'`. -/
def ParseCallArgs : Nat → Toks → List ExprAST → Option (List ExprAST) × Toks
  | 0, ts, _ => (none, ts)
  | fuel + 1, ts, acc =>
    match ParseExpression fuel ts with
    | (none, ts1) => (none, ts1)
    | (some arg, ts1) =>
      if CurTok ts1 = Token.tok_char ')' then (some (acc ++ [arg]), ts1)
      else if CurTok ts1 = Token.tok_char ',' then
        ParseCallArgs fuel ts1.tail (acc ++ [arg])
      else (none, ts1)

/-- `ParseExpression` (lines 319-325): a primary followed by the
precedence-climbing loop at minimum precedence 0. -/
def ParseExpression : Nat → Toks → Option ExprAST × Toks
  | 0, ts => (none, ts)
  | fuel + 1, ts =>
    match ParsePrimary fuel ts with
    | (none, ts1) => (none, ts1)
    | (some lhs, ts1) => ParseBinaryOpRHS fuel 0 lhs ts1

/-- `ParseBinaryOpRHS` (lines 290-315): while the current token is a binary
operator of precedence at least `exprPrec`, consume it, parse the right-hand
primary, absorb any tighter-binding follow-on operator into the right-hand
side, and combine left-associatively.  The C++ `while (true)` loop is the
tail call with unchanged `exprPrec`. -/
def ParseBinaryOpRHS : Nat → Int → ExprAST → Toks → Option ExprAST × Toks
  | 0, _, _, ts => (none, ts)
  | fuel + 1, exprPrec, lhs, ts =>
    let tokPrec := GetTokPrecedence (CurTok ts)
    if tokPrec < exprPrec then (some lhs, ts)
    else
      match CurTok ts with
      | Token.tok_char binOp =>
        let ts1 := ts.tail
        match ParsePrimary fuel ts1 with
        | (none, ts2) => (none, ts2)
        | (some rhs0, ts2) =>
          let nextPrec := GetTokPrecedence (CurTok ts2)
          if tokPrec < nextPrec then
            match ParseBinaryOpRHS fuel (tokPrec + 1) rhs0 ts2 with
            | (none, ts3) => (none, ts3)
            | (some rhs, ts3) =>
              ParseBinaryOpRHS fuel exprPrec (ExprAST.Binary binOp lhs rhs) ts3
          else ParseBinaryOpRHS fuel exprPrec (ExprAST.Binary binOp lhs rhs0) ts2
      | _ => (some lhs, ts)

end

/-- Entry point used below: parse one expression from a token stream with
ample fuel (each unit of fuel is spent only alongside consuming a token or
returning). -/
def ParseExpressionTop (ts : Toks) : Option ExprAST × Toks :=
  ParseExpression (2 * ts.length + 2) ts

/-- Parse one expression from raw input text, as the driver's
`ParseTopLevelExpr` would. -/
def parseTopExprFromInput (s : String) : Option ExprAST :=
  (ParseExpressionTop (tokenize s)).1

-- ---------------------------------------------------------------------------
-- Lowering / code generation (src/kal.cc lines 383-488)
-- ---------------------------------------------------------------------------

/-- An LLVM `Value*` as far as this lowering can observe it: a floating-point
constant, a formal parameter of a function, or the result of an emitted
instruction (identified by its position in the emission trace). -/
inductive Value where
  | constFP (v : ℚ)
  | arg (fn : String) (idx : Nat)
  | instr (id : Nat)
deriving DecidableEq

/-- The IR instructions this code generator can emit through the `IRBuilder`.
`IRBuilder`'s constant folding is not modelled: the trace records the
`Create*` calls; no claim below depends on whether a particular call was
folded into a constant. -/
inductive Instr where
  | fadd (l r : Value)
  | fsub (l r : Value)
  | fmul (l r : Value)
  | uitofp (v : Value)
  | call (callee : String) (args : List Value)
  | ret (v : Value)
deriving DecidableEq

/-- An LLVM `Function` in the module, as far as this lowering observes it:
its name, its parameter names in order (set by `PrototypeAST::codegen`), and
whether it is non-empty, i.e. has a body (`Function::empty()` is false once a
basic block is attached). -/
structure IRFunction where
  name : String
  params : List String
  hasBody : Bool
deriving DecidableEq

/-- The process-wide lowering state: the module's function list (`TheModule`),
the per-function local-variable table (`NamedValues`), the trace of emitted
instructions (`Builder->Create*` calls), and the diagnostics printed through
`LogErrorV`. -/
structure CGState where
  module : List IRFunction
  namedValues : List (String × Value)
  instrs : List Instr
  errors : List String
deriving DecidableEq

/-- The state right after `InitializeModule()`: empty module, no bindings, no
emissions, no diagnostics. -/
def cgInit : CGState := ⟨[], [], [], []⟩

/-- `LogErrorV` (lines 388-391): print the message and return null.  The
message becomes part of the observable error trace. -/
def logErrorV (st : CGState) (msg : String) : CGState :=
  { st with errors := st.errors ++ [msg] }

/-- Emit one instruction through the builder and return the `Value`
representing its result. -/
def emit (st : CGState) (i : Instr) : Value × CGState :=
  (Value.instr st.instrs.length, { st with instrs := st.instrs ++ [i] })

/-- `Module::getFunction` (line 426/460): look a function up by name. -/
def getFunction (m : List IRFunction) (nm : String) : Option IRFunction :=
  m.find? (fun f => f.name == nm)

/-- Lookup in `NamedValues`.  (`std::map::operator[]` on a missing key also
inserts a default `nullptr` entry; that entry is indistinguishable from
absence in every later lookup, so it is not modelled.) -/
def lookupVar (m : List (String × Value)) (k : String) : Option Value :=
  match m.find? (fun p => p.1 == k) with
  | some p => some p.2
  | none => none

/-- `NamedValues[k] = v`: insert or assign.  Only lookups on the table are
observable, so the representation keeps the first occurrence's position. -/
def mapInsert : List (String × Value) → String → Value → List (String × Value)
  | [], k, v => [(k, v)]
  | p :: rest, k, v =>
    if p.1 == k then (k, v) :: rest else p :: mapInsert rest k v

mutual

/-- `codegen` on the expression AST (lines 393-441), dispatching like the
virtual calls do:
`NumberExprAST` → a floating-point constant;
`VariableExprAST` → `NamedValues` lookup, logging "Unknown variable name" on
a miss and returning the (possibly null) value either way;
`BinaryExprAST` → lower the left then the right operand, return null if
either was null, then dispatch on the operator — note that the `'<'` case
(lines 417-421) computes `CreateUIToFP` of the left operand and then, having
no terminator, falls through into the `default:` case, which logs
"invalid binary operator" and returns null;
`CallExprAST` → resolve the callee in the module, check arity, then lower
each argument in order, short-circuiting on a null result. -/
def ExprAST.codegen : ExprAST → CGState → Option Value × CGState
  | ExprAST.Number v, st => (some (Value.constFP v), st)
  | ExprAST.Variable nm, st =>
    match lookupVar st.namedValues nm with
    | some v => (some v, st)
    | none => (none, logErrorV st "Unknown variable name")
  | ExprAST.Binary op lhs rhs, st =>
    let (l, st1) := ExprAST.codegen lhs st
    let (r, st2) := ExprAST.codegen rhs st1
    match l, r with
    | some lv, some rv =>
      if op = '+' then
        let (v, st3) := emit st2 (Instr.fadd lv rv)
        (some v, st3)
      else if op = '-' then
        let (v, st3) := emit st2 (Instr.fsub lv rv)
        (some v, st3)
      else if op = '*' then
        let (v, st3) := emit st2 (Instr.fmul lv rv)
        (some v, st3)
      else if op = '<' then
        let (_, st3) := emit st2 (Instr.uitofp lv)
        (none, logErrorV st3 "invalid binary operator")
      else (none, logErrorV st2 "invalid binary operator")
    | _, _ => (none, st2)
  | ExprAST.Call callee args, st =>
    match getFunction st.module callee with
    | none => (none, logErrorV st "Unknown function referenced")
    | some f =>
      if f.params.length ≠ args.length then
        (none, logErrorV st "Incorrect # arguments passed")
      else
        match codegenArgs args st with
        | (none, st1) => (none, st1)
        | (some vs, st1) =>
          let (v, st2) := emit st1 (Instr.call callee vs)
          (some v, st2)

/-- The argument-lowering loop of `CallExprAST::codegen` (lines 433-438):
lower each argument in order, stopping at the first null result. -/
def codegenArgs : List ExprAST → CGState → Option (List Value) × CGState
  | [], st => (some [], st)
  | a :: rest, st =>
    match ExprAST.codegen a st with
    | (none, st1) => (none, st1)
    | (some v, st1) =>
      match codegenArgs rest st1 with
      | (none, st2) => (none, st2)
      | (some vs, st2) => (some (v :: vs), st2)

end

/-- `PrototypeAST::codegen` (lines 443-457): create a function of the fixed
double type with the prototype's name and parameter names and add it to the
module.  It cannot fail. -/
def PrototypeAST.codegen (p : PrototypeAST) (st : CGState) :
    IRFunction × CGState :=
  let f : IRFunction := ⟨p.name, p.args, false⟩
  (f, { st with module := st.module ++ [f] })

/-- The first step of `FunctionAST::codegen` (lines 460-466): take the
module's existing function of that name, or create one from the prototype.
(The C++ null check on the result is vacuous: `PrototypeAST::codegen` always
returns a function.) -/
def resolveFunction (fd : FunctionAST) (st : CGState) : IRFunction × CGState :=
  match getFunction st.module fd.proto.name with
  | some f => (f, st)
  | none => fd.proto.codegen st

/-- Attaching the entry `BasicBlock` (line 471) makes the named function
non-empty from that point on. -/
def setHasBody (m : List IRFunction) (nm : String) : List IRFunction :=
  m.map (fun f => if f.name == nm then { f with hasBody := true } else f)

/-- `Function::eraseFromParent` (line 486): remove the named function from
the module. -/
def eraseFunction (m : List IRFunction) (nm : String) : List IRFunction :=
  m.filter (fun f => f.name != nm)

/-- The argument-binding loop of `FunctionAST::codegen` (lines 475-476):
`for (auto & Arg : TheFunction->args()) NamedValues[name(Arg)] = &Arg;`,
with `i` tracking the argument index. -/
def buildNamedValuesAux (fn : String) :
    Nat → List String → List (String × Value) → List (String × Value)
  | _, [], m => m
  | i, nm :: rest, m =>
    buildNamedValuesAux fn (i + 1) rest (mapInsert m nm (Value.arg fn i))

/-- `NamedValues.clear()` followed by binding every formal parameter of the
function in order (lines 474-476). -/
def buildNamedValues (fn : String) (ps : List String) :
    List (String × Value) :=
  buildNamedValuesAux fn 0 ps []

/-- The state in which `FunctionAST::codegen` lowers the body once the
redefinition check has passed: the entry block is attached (the function is
now non-empty) and `NamedValues` has been rebuilt from the function's
formal parameters. -/
def bodyState (st : CGState) (f : IRFunction) : CGState :=
  { st with module := setHasBody st.module f.name,
            namedValues := buildNamedValues f.name f.params }

/-- `FunctionAST::codegen` (lines 459-488): find or create the function;
fail with "Function cannot be redefined." if it already has a body; otherwise
attach the entry block, rebuild `NamedValues` from the function's formal
parameters, and lower the body.  On success emit the return and keep the now
fully defined function; on failure erase the function from the module. -/
def FunctionAST.codegen (fd : FunctionAST) (st : CGState) :
    Option IRFunction × CGState :=
  let (f, st1) := resolveFunction fd st
  if f.hasBody then (none, logErrorV st1 "Function cannot be redefined.")
  else
    let st2 := bodyState st1 f
    match ExprAST.codegen fd.body st2 with
    | (some rv, st3) =>
      let (_, st4) := emit st3 (Instr.ret rv)
      (some { f with hasBody := true }, st4)
    | (none, st3) =>
      (none, { st3 with module := eraseFunction st3.module f.name })

/-- Number of functions of a given name in the module. -/
def countName (m : List IRFunction) (nm : String) : Nat :=
  (m.filter (fun f => f.name == nm)).length

-- ---------------------------------------------------------------------------
-- Helper lemmas
-- ---------------------------------------------------------------------------

/-- The number do-while loop consumes exactly the maximal run of digit/dot
characters and leaves the first character past the run as the new
lookahead. -/
theorem readNumRest_eq (acc inp : List Char) :
    readNumRest acc inp
      = (acc ++ inp.takeWhile numChar,
         (inp.dropWhile numChar).head?, (inp.dropWhile numChar).tail) := by
  induction inp generalizing acc with
  | nil => simp [readNumRest]
  | cons d rest ih =>
    by_cases hd : numChar d = true
    · simp [readNumRest, hd, List.takeWhile_cons, List.dropWhile_cons, ih]
    · simp only [Bool.not_eq_true] at hd
      simp [readNumRest, hd, List.takeWhile_cons, List.dropWhile_cons]

/-- Whitespace-and-comment skipping does not move when the lookahead is
neither whitespace nor a comment start. -/
theorem skipWsCom_no_skip (c : Char) (inp : List Char)
    (h1 : c_isspace c = false) (h2 : (c == '#') = false) :
    skipWsCom (some c) false inp = (some c, inp) := by
  cases inp <;> simp [skipWsCom, h1, h2]

/-- A name that is not found in a module is found in an appended suffix, if
anywhere. -/
theorem getFunction_append_of_none (m l : List IRFunction) (nm : String)
    (h : getFunction m nm = none) :
    getFunction (m ++ l) nm = getFunction l nm := by
  induction m with
  | nil => simp
  | cons f rest ih =>
    simp only [getFunction, List.find?] at h ⊢
    cases hf : (f.name == nm) with
    | true => simp [hf] at h
    | false => simp only [hf] at h ⊢; exact ih h

/-- A function found by name has that name. -/
theorem getFunction_name (m : List IRFunction) (nm : String) (f : IRFunction)
    (h : getFunction m nm = some f) : f.name = nm := by
  have := List.find?_some h
  simpa using this

/-- Marking the named function as having a body rewrites exactly its entry in
every lookup. -/
theorem getFunction_setHasBody (m : List IRFunction) (nm : String) :
    getFunction (setHasBody m nm) nm
      = (getFunction m nm).map (fun f => { f with hasBody := true }) := by
  induction m with
  | nil => simp [getFunction, setHasBody]
  | cons f rest ih =>
    simp only [getFunction, setHasBody, List.map_cons, List.find?] at ih ⊢
    cases hf : (f.name == nm) with
    | true => simp [hf]
    | false => simpa [hf] using ih

/-- After erasing a name from the module, lookups of that name fail. -/
theorem getFunction_erase (m : List IRFunction) (nm : String) :
    getFunction (eraseFunction m nm) nm = none := by
  induction m with
  | nil => rfl
  | cons f rest ih =>
    simp only [eraseFunction, List.filter] at ih ⊢
    cases hf : (f.name != nm) with
    | true =>
      have hf2 : (f.name == nm) = false := by
        simp [bne] at hf
        simp [hf]
      simp only [getFunction, List.find?, hf2] at ih ⊢
      exact ih
    | false => simp_all

/-- A name that cannot be found occurs zero times. -/
theorem countName_of_none (m : List IRFunction) (nm : String)
    (h : getFunction m nm = none) : countName m nm = 0 := by
  induction m with
  | nil => rfl
  | cons f rest ih =>
    simp only [getFunction, List.find?] at h
    cases hf : (f.name == nm) with
    | true => simp [hf] at h
    | false =>
      simp only [hf] at h
      simpa [countName, List.filter, hf] using ih h

/-- Appending one function adds one occurrence of its own name. -/
theorem countName_append_one (m : List IRFunction) (f : IRFunction)
    (nm : String) (h : (f.name == nm) = true) :
    countName (m ++ [f]) nm = countName m nm + 1 := by
  simp [countName, List.filter_append, h]

/-- Marking a function as having a body does not change name counts. -/
theorem countName_setHasBody (m : List IRFunction) (nm2 nm : String) :
    countName (setHasBody m nm2) nm = countName m nm := by
  simp only [countName, ← List.countP_eq_length_filter, setHasBody,
    List.countP_map]
  refine List.countP_congr ?_
  intro f _
  by_cases hf : (f.name == nm2) = true
  · simp [Function.comp, hf]
  · simp only [Bool.not_eq_true] at hf
    simp [Function.comp, hf]

mutual

/-- Lowering an expression never touches the module's function list: only
`FunctionAST::codegen` and `PrototypeAST::codegen` do. -/
theorem codegen_module (e : ExprAST) (st : CGState) :
    ((ExprAST.codegen e st).2).module = st.module := by
  cases e with
  | Number v => rfl
  | Variable nm =>
    cases h : lookupVar st.namedValues nm with
    | some v => simp [ExprAST.codegen, h]
    | none => simp [ExprAST.codegen, h, logErrorV]
  | Binary op lhs rhs =>
    have h1 := codegen_module lhs st
    have h2 := codegen_module rhs (ExprAST.codegen lhs st).2
    rcases hl : ExprAST.codegen lhs st with ⟨lv, st1⟩
    rcases hr : ExprAST.codegen rhs st1 with ⟨rv, st2⟩
    rw [hl] at h1
    rw [hl, hr] at h2
    simp only [ExprAST.codegen, hl, hr]
    cases lv <;> cases rv <;> simp_all [emit, logErrorV]
    split_ifs <;> simp [emit, logErrorV]
  | Call callee args =>
    have h1 := codegenArgs_module args st
    cases hf : getFunction st.module callee with
    | none => simp [ExprAST.codegen, hf, logErrorV]
    | some f =>
      rcases ha : codegenArgs args st with ⟨vs, st1⟩
      rw [ha] at h1
      simp only [ExprAST.codegen, hf]
      split_ifs with hc
      · simp [logErrorV]
      · cases vs <;> simp_all [emit]

/-- Lowering an argument list never touches the module's function list. -/
theorem codegenArgs_module (l : List ExprAST) (st : CGState) :
    ((codegenArgs l st).2).module = st.module := by
  cases l with
  | nil => rfl
  | cons a rest =>
    have h1 := codegen_module a st
    have h2 := codegenArgs_module rest (ExprAST.codegen a st).2
    rcases ha : ExprAST.codegen a st with ⟨v, st1⟩
    rw [ha] at h1
    rw [ha] at h2
    rcases hr : codegenArgs rest st1 with ⟨vs, st2⟩
    rw [hr] at h2
    simp only [codegenArgs, ha, hr]
    cases v <;> cases vs <;> simp_all

end

/-- Insert-or-assign makes the key map to the new value. -/
theorem lookupVar_mapInsert_self (m : List (String × Value)) (k : String)
    (v : Value) : lookupVar (mapInsert m k v) k = some v := by
  induction m with
  | nil => simp [mapInsert, lookupVar, List.find?]
  | cons p rest ih =>
    by_cases hp : (p.1 == k) = true
    · simp [mapInsert, hp, lookupVar, List.find?]
    · simp only [Bool.not_eq_true] at hp
      simpa [mapInsert, hp, lookupVar, List.find?] using ih

/-- Insert-or-assign leaves every other key's binding unchanged. -/
theorem lookupVar_mapInsert_ne (m : List (String × Value)) (k : String)
    (v : Value) (k2 : String) (h : k2 ≠ k) :
    lookupVar (mapInsert m k v) k2 = lookupVar m k2 := by
  have hk : (k == k2) = false := by simp [Ne.symm h]
  induction m with
  | nil => simp [mapInsert, lookupVar, List.find?, hk]
  | cons p rest ih =>
    by_cases hp : (p.1 == k) = true
    · have hp2 : (p.1 == k2) = false := by
        have : p.1 = k := by simpa using hp
        simp [this, Ne.symm h]
      simp [mapInsert, hp, lookupVar, List.find?, hk, hp2]
    · simp only [Bool.not_eq_true] at hp
      cases hq : (p.1 == k2) with
      | true => simp [mapInsert, hp, lookupVar, List.find?, hq]
      | false => simpa [mapInsert, hp, lookupVar, List.find?, hq] using ih

/-- Binding the parameters does not disturb names outside the parameter
list. -/
theorem buildNamedValuesAux_lookup_not_mem (fn : String) (i : Nat)
    (ps : List String) (m : List (String × Value)) (nm : String)
    (h : nm ∉ ps) :
    lookupVar (buildNamedValuesAux fn i ps m) nm = lookupVar m nm := by
  induction ps generalizing i m with
  | nil => rfl
  | cons q rest ih =>
    have hq : nm ≠ q := by
      intro hcon
      exact h (hcon ▸ List.mem_cons_self q rest)
    have hrest : nm ∉ rest := fun hmem => h (List.mem_cons_of_mem q hmem)
    simp only [buildNamedValuesAux]
    rw [ih (i + 1) _ hrest, lookupVar_mapInsert_ne _ _ _ _ hq]

/-- With pairwise-distinct parameter names, the j-th parameter name is bound
to the j-th formal argument. -/
theorem buildNamedValuesAux_lookup_get (fn : String) (i : Nat)
    (ps : List String) (m : List (String × Value)) (hnd : ps.Nodup)
    (j : Nat) (hj : j < ps.length) :
    lookupVar (buildNamedValuesAux fn i ps m) (ps.get ⟨j, hj⟩)
      = some (Value.arg fn (i + j)) := by
  induction ps generalizing i m j with
  | nil => exact absurd hj (by simp)
  | cons q rest ih =>
    rcases List.nodup_cons.mp hnd with ⟨hq, hrest⟩
    cases j with
    | zero =>
      simp only [List.get, buildNamedValuesAux]
      rw [buildNamedValuesAux_lookup_not_mem fn (i + 1) rest _ q hq,
        lookupVar_mapInsert_self, Nat.add_zero]
    | succ j2 =>
      have hj2 : j2 < rest.length := by simpa using hj
      simp only [List.get, buildNamedValuesAux]
      have := ih (i + 1) (mapInsert m q (Value.arg fn i)) hrest j2 hj2
      rw [show i + 1 + j2 = i + (j2 + 1) by omega] at this
      exact this

/-- The function `FunctionAST::codegen` works on carries the prototype's
name, whether it was found in the module or freshly created. -/
theorem resolveFunction_name (fd : FunctionAST) (st : CGState) :
    (resolveFunction fd st).1.name = fd.proto.name := by
  cases hf : getFunction st.module fd.proto.name with
  | none => simp [resolveFunction, hf, PrototypeAST.codegen]
  | some f =>
    simp only [resolveFunction, hf]
    exact getFunction_name _ _ _ hf

/-- After resolving, the module really does contain the resolved function
under the prototype's name. -/
theorem resolveFunction_lookup (fd : FunctionAST) (st : CGState) :
    getFunction ((resolveFunction fd st).2).module fd.proto.name
      = some (resolveFunction fd st).1 := by
  cases hf : getFunction st.module fd.proto.name with
  | none =>
    simp only [resolveFunction, hf, PrototypeAST.codegen]
    rw [getFunction_append_of_none _ _ _ hf]
    simp [getFunction, List.find?]
  | some f => simp [resolveFunction, hf]

/-- Resolving never shrinks the state: the found case leaves it unchanged and
the create case appends the new declaration. -/
theorem resolveFunction_module (fd : FunctionAST) (st : CGState) :
    ((resolveFunction fd st).2).module = st.module
      ∨ ((resolveFunction fd st).2).module
          = st.module ++ [(resolveFunction fd st).1] := by
  cases hf : getFunction st.module fd.proto.name with
  | none => right; simp [resolveFunction, hf, PrototypeAST.codegen]
  | some f => left; simp [resolveFunction, hf]

/-- A successful `FunctionAST::codegen` leaves the lowered function in the
module, marked as having a body. -/
theorem codegen_success_defined (fd : FunctionAST) (st : CGState)
    (g : IRFunction) (h : (FunctionAST.codegen fd st).1 = some g) :
    getFunction ((FunctionAST.codegen fd st).2).module fd.proto.name = some g
      ∧ g.hasBody = true := by
  rcases hr : resolveFunction fd st with ⟨f, st1⟩
  have hname : f.name = fd.proto.name := by
    have := resolveFunction_name fd st
    rw [hr] at this
    exact this
  have hlook : getFunction st1.module fd.proto.name = some f := by
    have := resolveFunction_lookup fd st
    rw [hr] at this
    exact this
  by_cases hb : f.hasBody = true
  · rw [FunctionAST.codegen, hr] at h
    simp [hb] at h
  · simp only [Bool.not_eq_true] at hb
    rcases hbody : ExprAST.codegen fd.body (bodyState st1 f) with ⟨bv, st3⟩
    have hmod : st3.module = (bodyState st1 f).module := by
      have := codegen_module fd.body (bodyState st1 f)
      rw [hbody] at this
      exact this
    rw [FunctionAST.codegen, hr] at h ⊢
    simp only [hb, Bool.false_eq_true, if_false, hbody] at h ⊢
    cases bv with
    | none => simp at h
    | some rv =>
      simp only [Option.some.injEq] at h
      subst h
      refine ⟨?_, rfl⟩
      simp only [emit, hmod, bodyState]
      rw [← hname, getFunction_setHasBody, hname, hlook]
      simp [hname]

/-- The number character class is exactly the ten digits and the dot. -/
theorem numChar_cases (c : Char) (h : numChar c = true) :
    c = '0' ∨ c = '1' ∨ c = '2' ∨ c = '3' ∨ c = '4' ∨ c = '5'
      ∨ c = '6' ∨ c = '7' ∨ c = '8' ∨ c = '9' ∨ c = '.' := by
  simpa [numChar, c_isdigit, or_assoc] using h

/-- A digit or dot is neither whitespace nor a comment start, so the
whitespace-and-comment scanner leaves it in place. -/
theorem skipWsCom_numChar (c : Char) (inp : List Char)
    (h : numChar c = true) :
    skipWsCom (some c) false inp = (some c, inp) := by
  rcases numChar_cases c h with h1|h1|h1|h1|h1|h1|h1|h1|h1|h1|h1 <;>
    subst h1 <;> exact skipWsCom_no_skip _ _ (by decide) (by decide)

/-- A digit or dot never starts an identifier. -/
theorem c_isalpha_of_numChar (c : Char) (h : numChar c = true) :
    c_isalpha c = false := by
  rcases numChar_cases c h with h1|h1|h1|h1|h1|h1|h1|h1|h1|h1|h1 <;>
    subst h1 <;> decide

-- ---------------------------------------------------------------------------
-- Claim theorems
-- ---------------------------------------------------------------------------

/-- C1: the claim states that lowering `1 < 2` succeeds with a boolean-true
value widened to double.  The code does not do this: the `'<'` case of
`BinaryExprAST::codegen` (lines 417-421) computes only a `CreateUIToFP` cast
of the left operand (there is no comparison at all) and then, lacking a
`return`/`break`, falls through into the `default:` case, so lowering `1 < 2`
logs "invalid binary operator" and fails.  This theorem evaluates the
embedded code at the claim's own example input and records that behavior;
the spec (§9) itself flags the fallthrough as the historical defect, so the
claim describes the intent and the code is the slip. -/
theorem c1_lt_falls_through_to_invalid_operator :
    (ExprAST.codegen (ExprAST.Binary '<' (ExprAST.Number 1) (ExprAST.Number 2))
        cgInit).1 = none
    ∧ ((ExprAST.codegen (ExprAST.Binary '<' (ExprAST.Number 1)
          (ExprAST.Number 2)) cgInit).2).errors
        = ["invalid binary operator"] := ⟨rfl, rfl⟩

/-- C2 counterexample: the claim says that when the left operand's lowering
fails, the right operand is not lowered and no further error is reported from
it.  Concretely, lowering `x + y` with an empty local-variable table makes
the left operand `x` fail, yet the final state carries two
"Unknown variable name" diagnostics — the second one reported while lowering
the right operand `y`.  So the right operand is lowered even after the left
operand failed. -/
theorem c2_counterexample_right_operand_still_lowered :
    (ExprAST.codegen (ExprAST.Variable "x") cgInit).1 = none
    ∧ ((ExprAST.codegen (ExprAST.Binary '+' (ExprAST.Variable "x")
          (ExprAST.Variable "y")) cgInit).2).errors
        = ["Unknown variable name", "Unknown variable name"] := ⟨rfl, rfl⟩

/-- C2 amended: `BinaryExprAST::codegen` (lines 404-408) lowers the left
operand and then unconditionally lowers the right operand; only then does it
check the two results, and if either is null it returns failure.  The
resulting state is the one after lowering the right operand, i.e. failure of
the left operand does not prevent the right operand from being lowered. -/
theorem c2_amended_failure_propagates_after_both (op : Char) (l r : ExprAST)
    (st : CGState) (lv : Option Value) (st1 : CGState) (rv : Option Value)
    (st2 : CGState)
    (hl : ExprAST.codegen l st = (lv, st1))
    (hr : ExprAST.codegen r st1 = (rv, st2))
    (h : lv = none ∨ rv = none) :
    ExprAST.codegen (ExprAST.Binary op l r) st = (none, st2) := by
  simp only [ExprAST.codegen, hl, hr]
  cases lv with
  | none => rfl
  | some lv2 =>
    cases rv with
    | none => rfl
    | some rv2 => simp at h

/-- C2 witness: the amended theorem applied to the counterexample input. -/
theorem c2_witness :
    ExprAST.codegen (ExprAST.Binary '+' (ExprAST.Variable "x")
        (ExprAST.Variable "y")) cgInit
      = (none, (ExprAST.codegen (ExprAST.Variable "y")
          ((ExprAST.codegen (ExprAST.Variable "x") cgInit).2)).2) :=
  c2_amended_failure_propagates_after_both '+' (ExprAST.Variable "x")
    (ExprAST.Variable "y") cgInit
    none ((ExprAST.codegen (ExprAST.Variable "x") cgInit).2)
    none ((ExprAST.codegen (ExprAST.Variable "y")
      ((ExprAST.codegen (ExprAST.Variable "x") cgInit).2)).2)
    rfl rfl (Or.inl rfl)

/-- C4: `CallExprAST::codegen` (lines 425-441) first resolves the callee in
the module and fails with "Unknown function referenced" when it is absent;
when it is present but the declared parameter count differs from the number
of call arguments, it fails with "Incorrect # arguments passed" and the state
changes only by that diagnostic — in particular no argument has been lowered,
whatever the argument expressions are. -/
theorem c4_unknown_callee_and_arity_check_first (callee : String)
    (args : List ExprAST) (st : CGState) :
    (getFunction st.module callee = none →
      ExprAST.codegen (ExprAST.Call callee args) st
        = (none, logErrorV st "Unknown function referenced"))
    ∧ (∀ g : IRFunction, getFunction st.module callee = some g →
        g.params.length ≠ args.length →
        ExprAST.codegen (ExprAST.Call callee args) st
          = (none, logErrorV st "Incorrect # arguments passed")) := by
  constructor
  · intro h
    simp [ExprAST.codegen, h]
  · intro g hg hcount
    simp [ExprAST.codegen, hg, hcount]

/-- C4 witness: with only `f(a)` declared, calling the unknown `g` fails
with the unknown-function diagnostic, and calling `f` with two arguments
fails with the arity diagnostic without lowering them. -/
theorem c4_witness :
    (ExprAST.codegen (ExprAST.Call "g" [ExprAST.Number 1])
        ((PrototypeAST.codegen ⟨"f", ["a"]⟩ cgInit).2)
      = (none, logErrorV ((PrototypeAST.codegen ⟨"f", ["a"]⟩ cgInit).2)
          "Unknown function referenced"))
    ∧ (ExprAST.codegen (ExprAST.Call "f" [ExprAST.Number 1, ExprAST.Number 2])
        ((PrototypeAST.codegen ⟨"f", ["a"]⟩ cgInit).2)
      = (none, logErrorV ((PrototypeAST.codegen ⟨"f", ["a"]⟩ cgInit).2)
          "Incorrect # arguments passed")) :=
  ⟨(c4_unknown_callee_and_arity_check_first "g" [ExprAST.Number 1] _).1 rfl,
   (c4_unknown_callee_and_arity_check_first "f"
      [ExprAST.Number 1, ExprAST.Number 2] _).2 ⟨"f", ["a"], false⟩ rfl
      (by decide)⟩

/-- C5: the parser applies the precedence table and parenthesized grouping:
`3+4*5` parses to `'+'(3, '*'(4, 5))` and `(3+4)*5` parses to
`'*'('+'(3, 4), 5)`, end to end from the raw character input. -/
theorem c5_precedence_and_grouping :
    parseTopExprFromInput "3+4*5"
      = some (ExprAST.Binary '+' (ExprAST.Number 3)
          (ExprAST.Binary '*' (ExprAST.Number 4) (ExprAST.Number 5)))
    ∧ parseTopExprFromInput "(3+4)*5"
      = some (ExprAST.Binary '*'
          (ExprAST.Binary '+' (ExprAST.Number 3) (ExprAST.Number 4))
          (ExprAST.Number 5)) := ⟨rfl, rfl⟩

/-- C7: `getTok` is total by construction (it is a plain function into
`Token`, with `tok_eof` as its only end-of-input outcome), and on any
lookahead character in the number class (a digit or `'.'`) it consumes
exactly the maximal run of digit/dot characters — however malformed, e.g.
`1.2.3` — and returns a number token whose value is the permissive
`strtod`-style conversion of the run, never an error. -/
theorem c7_number_rule_total (c : Char) (inp : List Char)
    (h : numChar c = true) :
    getTok ⟨some c, inp⟩
      = (Token.tok_number (strtod (c :: inp.takeWhile numChar)),
         ⟨(inp.dropWhile numChar).head?, (inp.dropWhile numChar).tail⟩) := by
  simp only [getTok]
  rw [skipWsCom_numChar c inp h]
  simp [c_isalpha_of_numChar c h, h, readNumRest_eq]

/-- C7 witness: the number rule at the malformed literal `1.2.3`: the whole
run is consumed as one number token whose value is `strtod "1.2.3"`. -/
theorem c7_witness :
    getTok ⟨some '1', ['.', '2', '.', '3']⟩
      = (Token.tok_number (strtod ['1', '.', '2', '.', '3']), ⟨none, []⟩) := by
  have h := c7_number_rule_total '1' ['.', '2', '.', '3'] (by decide)
  simpa using h

/-- C10: the precedence table gives `'-'` precedence 30, strictly above the
20 of `'+'`, so `a+b-c` (here with number-literal primaries) parses with the
`'-'` absorbed into the right-hand side: `'+'(a, '-'(b, c))`, not the
left-associated `'-'('+'(a, b), c)`. -/
theorem c10_minus_binds_tighter_than_plus (x y z : ℚ) :
    BinopPrecedence '-' = 30 ∧ BinopPrecedence '+' = 20 ∧
    (ParseExpressionTop [Token.tok_number x, Token.tok_char '+',
        Token.tok_number y, Token.tok_char '-', Token.tok_number z,
        Token.tok_eof]).1
      = some (ExprAST.Binary '+' (ExprAST.Number x)
          (ExprAST.Binary '-' (ExprAST.Number y) (ExprAST.Number z)))
    := ⟨rfl, rfl, rfl⟩

/-- C10 witness: the parse shape at the concrete input `1+2-3`. -/
theorem c10_witness :
    (ParseExpressionTop [Token.tok_number 1, Token.tok_char '+',
        Token.tok_number 2, Token.tok_char '-', Token.tok_number 3,
        Token.tok_eof]).1
      = some (ExprAST.Binary '+' (ExprAST.Number 1)
          (ExprAST.Binary '-' (ExprAST.Number 2) (ExprAST.Number 3))) :=
  (c10_minus_binds_tighter_than_plus 1 2 3).2.2

/-- C3: the declare-versus-define law of `FunctionAST::codegen`
(lines 459-488).  First part: after a `FunctionDefinition` of some name has
been lowered successfully, lowering any `FunctionDefinition` of the same name
fails with "Function cannot be redefined." and changes nothing but that
diagnostic — in particular the module, and with it the first definition, is
left intact.  Second part: after only a prototype (extern) declaration of the
name, lowering a `FunctionDefinition` whose body lowers successfully reuses
that declaration-only function and succeeds, leaving exactly one function of
that name in the module, now fully defined. -/
theorem c3_redefinition_law :
    (∀ (fd1 fd2 : FunctionAST) (st : CGState) (g : IRFunction),
      (FunctionAST.codegen fd1 st).1 = some g →
      fd2.proto.name = fd1.proto.name →
      FunctionAST.codegen fd2 ((FunctionAST.codegen fd1 st).2)
        = (none, logErrorV ((FunctionAST.codegen fd1 st).2)
            "Function cannot be redefined."))
    ∧ (∀ (p : PrototypeAST) (fd : FunctionAST) (st : CGState) (rv : Value),
      getFunction st.module p.name = none →
      fd.proto.name = p.name →
      (ExprAST.codegen fd.body
          (bodyState ((PrototypeAST.codegen p st).2)
            ((PrototypeAST.codegen p st).1))).1 = some rv →
      (FunctionAST.codegen fd ((PrototypeAST.codegen p st).2)).1
          = some ⟨p.name, p.args, true⟩
      ∧ countName
          ((FunctionAST.codegen fd ((PrototypeAST.codegen p st).2)).2).module
          p.name = 1) := by
  constructor
  · intro fd1 fd2 st g hsucc hname
    obtain ⟨hlook, hbody⟩ := codegen_success_defined fd1 st g hsucc
    have hres : resolveFunction fd2 ((FunctionAST.codegen fd1 st).2)
        = (g, (FunctionAST.codegen fd1 st).2) := by
      simp [resolveFunction, hname, hlook]
    rw [FunctionAST.codegen, hres]
    simp [hbody]
  · intro p fd st rv hnone hname hbody
    have hlookE : getFunction ((PrototypeAST.codegen p st).2).module
        fd.proto.name = some ⟨p.name, p.args, false⟩ := by
      rw [hname]
      show getFunction (st.module ++ [⟨p.name, p.args, false⟩]) p.name = _
      rw [getFunction_append_of_none _ _ _ hnone]
      simp [getFunction, List.find?]
    have hres : resolveFunction fd ((PrototypeAST.codegen p st).2)
        = (⟨p.name, p.args, false⟩, (PrototypeAST.codegen p st).2) := by
      simp [resolveFunction, hlookE]
    rcases hb : ExprAST.codegen fd.body
        (bodyState ((PrototypeAST.codegen p st).2) ⟨p.name, p.args, false⟩)
      with ⟨bv, st3⟩
    have hbv : bv = some rv := by
      have h2 : (ExprAST.codegen fd.body
          (bodyState ((PrototypeAST.codegen p st).2)
            ⟨p.name, p.args, false⟩)).1 = some rv := hbody
      rw [hb] at h2
      exact h2
    subst hbv
    have hmod3 : st3.module
        = (bodyState ((PrototypeAST.codegen p st).2)
            ⟨p.name, p.args, false⟩).module := by
      have := codegen_module fd.body
        (bodyState ((PrototypeAST.codegen p st).2) ⟨p.name, p.args, false⟩)
      rw [hb] at this
      exact this
    rw [FunctionAST.codegen, hres]
    constructor
    · simp [hb]
    · simp only [hb]
      simp only [emit, Bool.false_eq_true, if_false]
      rw [hmod3]
      simp only [bodyState]
      rw [countName_setHasBody]
      show countName (st.module ++ [⟨p.name, p.args, false⟩]) p.name = 1
      rw [countName_append_one _ _ _ (by simp)]
      rw [countName_of_none _ _ hnone]

/-- C3 witness: `def foo(a) a` twice — the second lowering fails with the
redefinition diagnostic and changes nothing else; and `extern bar(a)`
followed by `def bar(a) a` — the definition succeeds and leaves exactly one
fully defined `bar`. -/
theorem c3_witness :
    (FunctionAST.codegen ⟨⟨"foo", ["a"]⟩, ExprAST.Variable "a"⟩
        ((FunctionAST.codegen ⟨⟨"foo", ["a"]⟩, ExprAST.Variable "a"⟩
          cgInit).2)
      = (none, logErrorV
          ((FunctionAST.codegen ⟨⟨"foo", ["a"]⟩, ExprAST.Variable "a"⟩
            cgInit).2)
          "Function cannot be redefined."))
    ∧ ((FunctionAST.codegen ⟨⟨"bar", ["a"]⟩, ExprAST.Variable "a"⟩
          ((PrototypeAST.codegen ⟨"bar", ["a"]⟩ cgInit).2)).1
        = some ⟨"bar", ["a"], true⟩
      ∧ countName
          ((FunctionAST.codegen ⟨⟨"bar", ["a"]⟩, ExprAST.Variable "a"⟩
            ((PrototypeAST.codegen ⟨"bar", ["a"]⟩ cgInit).2)).2).module
          "bar" = 1) :=
  ⟨c3_redefinition_law.1 ⟨⟨"foo", ["a"]⟩, ExprAST.Variable "a"⟩
      ⟨⟨"foo", ["a"]⟩, ExprAST.Variable "a"⟩ cgInit ⟨"foo", ["a"], true⟩
      rfl rfl,
   c3_redefinition_law.2 ⟨"bar", ["a"]⟩
      ⟨⟨"bar", ["a"]⟩, ExprAST.Variable "a"⟩ cgInit (Value.arg "bar" 0)
      rfl rfl rfl⟩

/-- C6: when the redefinition check passes (the resolved function has no body
yet) and lowering the body expression fails, `FunctionAST::codegen` fails and
erases the function from the module (line 486), so no partial function of
that name remains visible in the function table. -/
theorem c6_failed_body_discards_function (fd : FunctionAST) (st : CGState)
    (hdecl : (resolveFunction fd st).1.hasBody = false)
    (hfail : (ExprAST.codegen fd.body
        (bodyState ((resolveFunction fd st).2)
          ((resolveFunction fd st).1))).1 = none) :
    (FunctionAST.codegen fd st).1 = none
    ∧ getFunction ((FunctionAST.codegen fd st).2).module fd.proto.name
        = none := by
  rcases hr : resolveFunction fd st with ⟨f, st1⟩
  have hdecl2 : f.hasBody = false := by rw [hr] at hdecl; exact hdecl
  have hfail2 : (ExprAST.codegen fd.body (bodyState st1 f)).1 = none := by
    rw [hr] at hfail; exact hfail
  rcases hb : ExprAST.codegen fd.body (bodyState st1 f) with ⟨bv, st3⟩
  have hbv : bv = none := by rw [hb] at hfail2; exact hfail2
  subst hbv
  have hnamef : f.name = fd.proto.name := by
    have := resolveFunction_name fd st
    rw [hr] at this
    exact this
  rw [FunctionAST.codegen, hr]
  constructor
  · simp [hdecl2, hb]
  · simp only [hdecl2, Bool.false_eq_true, if_false, hb]
    rw [← hnamef]
    exact getFunction_erase _ _

/-- C6 witness: `def foo(a) b` — the body references the unknown variable
`b`, so its lowering fails and no function named `foo` is left behind. -/
theorem c6_witness :
    (FunctionAST.codegen ⟨⟨"foo", ["a"]⟩, ExprAST.Variable "b"⟩ cgInit).1
        = none
    ∧ getFunction
        ((FunctionAST.codegen ⟨⟨"foo", ["a"]⟩, ExprAST.Variable "b"⟩
          cgInit).2).module "foo" = none :=
  c6_failed_body_discards_function ⟨⟨"foo", ["a"]⟩, ExprAST.Variable "b"⟩
    cgInit rfl rfl

/-- C8: at the start of lowering every function body — that is, in the state
`bodyState` in which `FunctionAST::codegen` lowers the body — the
local-variable table holds exactly one binding per (distinct) parameter name
of the function being lowered, each bound to the formal parameter of the same
position, and nothing else: any name outside the parameter list is unbound no
matter what the table held before (`NamedValues.clear()`, lines 474-476). -/
theorem c8_fresh_parameter_table (st : CGState) (f : IRFunction)
    (hnd : f.params.Nodup) :
    (∀ (j : Nat) (hj : j < f.params.length),
      lookupVar ((bodyState st f).namedValues) (f.params.get ⟨j, hj⟩)
        = some (Value.arg f.name j))
    ∧ ∀ nm, nm ∉ f.params →
        lookupVar ((bodyState st f).namedValues) nm = none := by
  constructor
  · intro j hj
    have := buildNamedValuesAux_lookup_get f.name 0 f.params [] hnd j hj
    simpa [bodyState, buildNamedValues] using this
  · intro nm hnm
    have := buildNamedValuesAux_lookup_not_mem f.name 0 f.params [] nm hnm
    simpa [bodyState, buildNamedValues, lookupVar, List.find?] using this

/-- C8 witness: lowering a body of `foo(a b)` from a state whose table still
holds a stale binding for `old`: the fresh table binds `a` and `b` to the
formal parameters 0 and 1 and does not see `old`. -/
theorem c8_witness :
    lookupVar ((bodyState ⟨[], [("old", Value.constFP 0)], [], []⟩
        ⟨"foo", ["a", "b"], false⟩).namedValues) "a"
      = some (Value.arg "foo" 0)
    ∧ lookupVar ((bodyState ⟨[], [("old", Value.constFP 0)], [], []⟩
        ⟨"foo", ["a", "b"], false⟩).namedValues) "b"
      = some (Value.arg "foo" 1)
    ∧ lookupVar ((bodyState ⟨[], [("old", Value.constFP 0)], [], []⟩
        ⟨"foo", ["a", "b"], false⟩).namedValues) "old" = none :=
  ⟨(c8_fresh_parameter_table ⟨[], [("old", Value.constFP 0)], [], []⟩
      ⟨"foo", ["a", "b"], false⟩ (by decide)).1 0 (by decide),
   (c8_fresh_parameter_table ⟨[], [("old", Value.constFP 0)], [], []⟩
      ⟨"foo", ["a", "b"], false⟩ (by decide)).1 1 (by decide),
   (c8_fresh_parameter_table ⟨[], [("old", Value.constFP 0)], [], []⟩
      ⟨"foo", ["a", "b"], false⟩ (by decide)).2 "old" (by decide)⟩

/-- C9: lowering a `FunctionDefinition` is not atomic with respect to a
pre-existing extern declaration.  Starting from a module without the name,
after `PrototypeAST::codegen` the declaration is present; if a subsequent
`FunctionAST::codegen` of the same name has its body fail to lower, the
`eraseFromParent` call removes the whole function — the pre-existing
declaration included — so the table is not restored to its pre-call state,
and a later call to that name fails with "Unknown function referenced". -/
theorem c9_failed_body_erases_prior_declaration (p : PrototypeAST)
    (fd : FunctionAST) (st : CGState) (args : List ExprAST)
    (hnone : getFunction st.module p.name = none)
    (hname : fd.proto.name = p.name)
    (hfail : (ExprAST.codegen fd.body
        (bodyState ((PrototypeAST.codegen p st).2)
          ((PrototypeAST.codegen p st).1))).1 = none) :
    getFunction ((PrototypeAST.codegen p st).2).module p.name
        = some ((PrototypeAST.codegen p st).1)
    ∧ (FunctionAST.codegen fd ((PrototypeAST.codegen p st).2)).1 = none
    ∧ getFunction
        ((FunctionAST.codegen fd ((PrototypeAST.codegen p st).2)).2).module
        p.name = none
    ∧ ExprAST.codegen (ExprAST.Call p.name args)
          ((FunctionAST.codegen fd ((PrototypeAST.codegen p st).2)).2)
        = (none, logErrorV
            ((FunctionAST.codegen fd ((PrototypeAST.codegen p st).2)).2)
            "Unknown function referenced") := by
  have hlookE : getFunction ((PrototypeAST.codegen p st).2).module
      fd.proto.name = some ⟨p.name, p.args, false⟩ := by
    rw [hname]
    show getFunction (st.module ++ [⟨p.name, p.args, false⟩]) p.name = _
    rw [getFunction_append_of_none _ _ _ hnone]
    simp [getFunction, List.find?]
  have hres : resolveFunction fd ((PrototypeAST.codegen p st).2)
      = (⟨p.name, p.args, false⟩, (PrototypeAST.codegen p st).2) := by
    simp [resolveFunction, hlookE]
  rcases hb : ExprAST.codegen fd.body
      (bodyState ((PrototypeAST.codegen p st).2) ⟨p.name, p.args, false⟩)
    with ⟨bv, st3⟩
  have hbv : bv = none := by
    have h2 : (ExprAST.codegen fd.body
        (bodyState ((PrototypeAST.codegen p st).2)
          ⟨p.name, p.args, false⟩)).1 = none := hfail
    rw [hb] at h2
    exact h2
  subst hbv
  have herase : getFunction
      ((FunctionAST.codegen fd ((PrototypeAST.codegen p st).2)).2).module
      p.name = none := by
    rw [FunctionAST.codegen, hres]
    simp only [Bool.false_eq_true, if_false, hb]
    exact getFunction_erase _ _
  refine ⟨?_, ?_, herase, ?_⟩
  · rw [hname] at hlookE
    exact hlookE
  · rw [FunctionAST.codegen, hres]
    simp [hb]
  · simp [ExprAST.codegen, herase]

/-- C9 witness: `extern foo(a)`, then `def foo(a) b` whose body fails on
the unknown variable `b`, then the call `foo(1)`: the declaration exists
after the extern, the definition fails, the declaration is gone, and the
call reports an unknown function. -/
theorem c9_witness :
    getFunction ((PrototypeAST.codegen ⟨"foo", ["a"]⟩ cgInit).2).module "foo"
        = some ((PrototypeAST.codegen ⟨"foo", ["a"]⟩ cgInit).1)
    ∧ (FunctionAST.codegen ⟨⟨"foo", ["a"]⟩, ExprAST.Variable "b"⟩
        ((PrototypeAST.codegen ⟨"foo", ["a"]⟩ cgInit).2)).1 = none
    ∧ getFunction
        ((FunctionAST.codegen ⟨⟨"foo", ["a"]⟩, ExprAST.Variable "b"⟩
          ((PrototypeAST.codegen ⟨"foo", ["a"]⟩ cgInit).2)).2).module "foo"
        = none
    ∧ ExprAST.codegen (ExprAST.Call "foo" [ExprAST.Number 1])
          ((FunctionAST.codegen ⟨⟨"foo", ["a"]⟩, ExprAST.Variable "b"⟩
            ((PrototypeAST.codegen ⟨"foo", ["a"]⟩ cgInit).2)).2)
        = (none, logErrorV
            ((FunctionAST.codegen ⟨⟨"foo", ["a"]⟩, ExprAST.Variable "b"⟩
              ((PrototypeAST.codegen ⟨"foo", ["a"]⟩ cgInit).2)).2)
            "Unknown function referenced") :=
  c9_failed_body_erases_prior_declaration ⟨"foo", ["a"]⟩
    ⟨⟨"foo", ["a"]⟩, ExprAST.Variable "b"⟩ cgInit [ExprAST.Number 1]
    rfl rfl rfl
